import Mathlib

/-!
Verification development for the ingestion synchronization and scheduling
engine of the finx_sidekick repository.

The Python sources are shallowly embedded as pure Lean functions:

* SQLite tables become lists of row structures threaded through the
  functions that mutate them (src/database.py).
* Machine timestamps (ISO-8601 UTC strings in the source) and tweet ids
  (decimal snowflake strings, always compared through int() in the source)
  are modelled as natural numbers; the source only ever compares them by
  the corresponding numeric order.
* Network calls (the twitterapi.io endpoints reached through httpx) are
  modelled by explicit page-response inputs or by oracle functions whose
  Except results stand for the Python return-or-raise outcomes.
* Wall-clock reads (datetime.now) become explicit now arguments.
-/

namespace FinxSidekick

/-! ## Digest store: src/database.py, summaries table and save_summary -/

/-- One row of the summaries table (id, timestamp, summary, tweet_ids).
The tweet_ids column holds the JSON encoding of a list of id strings; we
model it as the list itself. -/
structure SummaryRow where
  id : Nat
  timestamp : String
  summary : String
  tweet_ids : List String
deriving Repr, DecidableEq

/-- The summaries table plus the AUTOINCREMENT counter that produces the
next primary key. -/
structure SummariesDB where
  rows : List SummaryRow
  nextId : Nat
deriving Repr, DecidableEq

/-- Embeds the normalization in save_summary:
sorted(set(str(tid) for tid in tweet_ids)) -- deduplicate, then sort the
resulting id strings ascending. -/
def normalized_tweet_ids (tweet_ids : List String) : List String :=
  List.insertionSort (· ≤ ·) tweet_ids.dedup

/-- Embeds the lookup in save_summary:
SELECT id FROM summaries WHERE tweet_ids = ? ORDER BY timestamp DESC LIMIT 1.
Among rows whose tweet_ids equal the normalized list, the row with the
greatest timestamp is returned (the first such row on ties). -/
def findExistingSummary (rows : List SummaryRow) (tids : List String) :
    Option SummaryRow :=
  (rows.filter (fun r => r.tweet_ids = tids)).foldl
    (fun best r =>
      match best with
      | none => some r
      | some b => if b.timestamp < r.timestamp then some r else some b)
    none

/-- Embeds save_summary from src/database.py: normalize the tweet id list;
if a row with the same normalized tweet_ids exists, overwrite only its
summary text and return its id; otherwise insert a new row carrying the
given generation timestamp and return the fresh id. -/
def save_summary (db : SummariesDB) (summary : String)
    (tweet_ids : List String) (generation_timestamp : String) :
    SummariesDB × Nat :=
  let norm := normalized_tweet_ids tweet_ids
  match findExistingSummary db.rows norm with
  | some existing =>
      ({ db with
          rows := db.rows.map (fun r =>
            if r.id = existing.id then { r with summary := summary } else r) },
        existing.id)
  | none =>
      ({ rows := db.rows ++
            [{ id := db.nextId, timestamp := generation_timestamp,
               summary := summary, tweet_ids := norm }],
         nextId := db.nextId + 1 },
        db.nextId)

/-! ## Account tracking: src/database.py, account_tracking table -/

/-- Strips whitespace from both ends of a character list, as Python
str.strip() does. -/
def pyStrip (s : List Char) : List Char :=
  ((s.dropWhile Char.isWhitespace).reverse.dropWhile
    Char.isWhitespace).reverse

/-- Embeds the handle normalization used across storage.py and database.py:
handle.strip().lstrip(at sign).lower(), written over the character list of
the string. -/
def normalizeHandle (handle : String) : String :=
  String.mk
    (((pyStrip handle.data).dropWhile (fun c => c == '@')).map Char.toLower)

/-- One row of the account_tracking table. Tweet ids, UTC timestamps and
the updated_at column are modelled as naturals (see the file header). -/
structure TrackingRow where
  handle : String
  last_tweet_id : Option Nat
  last_fetch_timestamp_utc : Option Nat
  last_summary_id : Option Nat
  updated_at : Nat
deriving Repr, DecidableEq

/-- The SET clause of the UPDATE built by update_account_tracking, applied
to one row: each column whose argument is present is overwritten, the
others keep their stored values, and updated_at is set to the current
time. -/
def applyTrackingUpdate (last_tweet_id : Option Nat)
    (last_fetch_timestamp_utc : Option Nat) (last_summary_id : Option Nat)
    (now : Nat) (r : TrackingRow) : TrackingRow :=
  { r with
      last_tweet_id :=
        match last_tweet_id with
        | some v => some v
        | none => r.last_tweet_id,
      last_fetch_timestamp_utc :=
        match last_fetch_timestamp_utc with
        | some v => some v
        | none => r.last_fetch_timestamp_utc,
      last_summary_id :=
        match last_summary_id with
        | some v => some v
        | none => r.last_summary_id,
      updated_at := now }

/-- Embeds update_account_tracking from src/database.py: arguments passed
as None are omitted from the UPDATE, so the corresponding columns keep
their stored values; if no argument is given at all, no statement runs; if
the UPDATE matches no row, a fresh row is inserted with the given values. -/
def update_account_tracking (db : List TrackingRow) (now : Nat)
    (handle : String) (last_tweet_id : Option Nat)
    (last_fetch_timestamp_utc : Option Nat) (last_summary_id : Option Nat) :
    List TrackingRow :=
  let nh := normalizeHandle handle
  if last_tweet_id = none ∧ last_fetch_timestamp_utc = none ∧
      last_summary_id = none then
    db
  else
    let updated := db.map (fun r =>
      if r.handle = nh then
        applyTrackingUpdate last_tweet_id last_fetch_timestamp_utc
          last_summary_id now r
      else r)
    if db.any (fun r => r.handle = nh) then updated
    else updated ++
      [{ handle := nh, last_tweet_id := last_tweet_id,
         last_fetch_timestamp_utc := last_fetch_timestamp_utc,
         last_summary_id := last_summary_id, updated_at := now }]

/-! ## Calendar: src/holidays.py -/

/-- A civil date as used by Python datetime.date. -/
structure CivilDate where
  year : Nat
  month : Nat
  day : Nat
deriving Repr, DecidableEq

/-- Embeds the hardcoded US_MARKET_HOLIDAYS list from src/holidays.py. -/
def US_MARKET_HOLIDAYS : List (Nat × Nat × Nat) :=
  [ (2025, 1, 1), (2025, 1, 20), (2025, 2, 17), (2025, 4, 18), (2025, 5, 26),
    (2025, 6, 19), (2025, 7, 4), (2025, 9, 1), (2025, 11, 27), (2025, 12, 25),
    (2026, 1, 1), (2026, 1, 19), (2026, 2, 16), (2026, 4, 3), (2026, 5, 25),
    (2026, 6, 19), (2026, 7, 3), (2026, 9, 7), (2026, 11, 26), (2026, 12, 25),
    (2027, 1, 1), (2027, 1, 18), (2027, 2, 15), (2027, 3, 26), (2027, 5, 31),
    (2027, 6, 18), (2027, 7, 5), (2027, 9, 6), (2027, 11, 25), (2027, 12, 24) ]

/-- Embeds is_market_holiday: membership of the (year, month, day) triple
in the hardcoded list. -/
def is_market_holiday (d : CivilDate) : Bool :=
  US_MARKET_HOLIDAYS.contains (d.year, d.month, d.day)

/-- Days from 0000-03-01 to the given civil date (valid for year ≥ 1),
the standard civil-calendar day count used to compute weekdays. -/
def daysFromCivil (y m d : Nat) : Nat :=
  let y2 := if m ≤ 2 then y - 1 else y
  let era := y2 / 400
  let yoe := y2 % 400
  let mp := (m + 9) % 12
  let doy := (153 * mp + 2) / 5 + d - 1
  let doe := yoe * 365 + yoe / 4 - yoe / 100 + doy
  era * 146097 + doe

/-- Weekday with the Python date.weekday() convention: Monday = 0 through
Sunday = 6. The offset 2 aligns the day count with the known weekday of
1970-01-01 (a Thursday, Python weekday 3). -/
def pyWeekday (dt : CivilDate) : Nat :=
  (daysFromCivil dt.year dt.month dt.day + 2) % 7

/-- Embeds is_weekend: weekday() ≥ 5 means Saturday or Sunday. -/
def is_weekend (d : CivilDate) : Bool :=
  pyWeekday d ≥ 5

/-- Embeds should_fetch_today for an explicitly supplied date: fetch only
when the date is neither a weekend nor a market holiday. -/
def should_fetch_today (d : CivilDate) : Bool :=
  if is_weekend d then false
  else if is_market_holiday d then false
  else true

/-! ## Source Client: src/main.py, fetch_tweets (id-based, paginated) -/

/-- One upstream page response of the last_tweets endpoint, as read by
fetch_tweets: the tweet ids of data.data.tweets (in response order, newest
first), the data.data.has_next_page flag, the data.data.next_cursor string
and whether the top-level status field equals error. -/
structure Page where
  tweets : List Nat
  has_next_page : Bool
  next_cursor : String
  isError : Bool
deriving Repr, DecidableEq

/-- The page-fetching loop of fetch_tweets, recursing over the remaining
page budget (max_pages minus pages already fetched) and the remaining
upstream responses. Returns the accumulated tweet ids together with the
number of pages fetched. An error status, an empty tweet list, a page that
both contains since_id and contributes no new tweet, an exhausted
has_next_page flag, or an empty cursor each end the loop. -/
def fetchLoop (since_id : Option Nat) : Nat → List Page → List Nat × Nat
  | 0, _ => ([], 0)
  | _ + 1, [] => ([], 0)
  | fuel + 1, p :: rest =>
    if p.isError then ([], 1)
    else if p.tweets = [] then ([], 1)
    else
      match since_id with
      | some s =>
        let filtered := p.tweets.filter (fun t => s < t)
        let found := p.tweets.contains s
        if found ∧ filtered = [] then (filtered, 1)
        else if ¬ p.has_next_page then (filtered, 1)
        else if p.next_cursor = "" then (filtered, 1)
        else
          let r := fetchLoop (some s) fuel rest
          (filtered ++ r.1, r.2 + 1)
      | none =>
        if ¬ p.has_next_page then (p.tweets, 1)
        else if p.next_cursor = "" then (p.tweets, 1)
        else
          let r := fetchLoop none fuel rest
          (p.tweets ++ r.1, r.2 + 1)

/-- Embeds fetch_tweets from src/main.py over the sequence of upstream
page responses: page budget 5 when since_id is absent (first sync), else
10; pages are consumed in order through the pagination cursor. Returns
the fetched tweet ids and the number of pages fetched. -/
def fetch_tweets (pages : List Page) (since_id : Option Nat) :
    List Nat × Nat :=
  let max_pages := if since_id.isNone then 5 else 10
  fetchLoop since_id max_pages pages

/-! ## Source Client: src/main.py, fetch_tweets_advanced_search window -/

/-- Embeds the window-start computation of fetch_tweets_advanced_search:
the given since timestamp when present, else now minus one hour. -/
def advancedSearchSince (now : Nat) (since_timestamp_utc : Option Nat) :
    Nat :=
  match since_timestamp_utc with
  | some t => t
  | none => now - 3600

/-! ## Hybrid Fetch Strategy: src/main.py, fetch_tweets_hybrid

The two upstream calls made by fetch_tweets_hybrid go through the network,
so they are modelled as oracle functions whose Except value stands for the
Python outcome: ok is a normal return, error is a raised exception. The
embedding additionally records the sequence of upstream calls made. -/

/-- An upstream call made by fetch_tweets_hybrid: an Advanced Search
(window) call with its since timestamp, or a last_tweets (id-based) call
with its since_id. -/
inductive FetchCall where
  | adv (since_timestamp_utc : Option Nat)
  | byId (since_id : Option Nat)
deriving Repr, DecidableEq

/-- Outcomes of the two upstream fetch functions as seen by
fetch_tweets_hybrid. -/
structure FetchEnv where
  advSearch : Option Nat → Except Unit (List Nat)
  byIdFetch : Option Nat → Except Unit (List Nat)

/-- The code after the primary branch of fetch_tweets_hybrid: use the
since_id fetch when since_id is present (errors give an empty list);
otherwise retry Advanced Search with the default window and, only if that
raises, fall back to the unfiltered id-based fetch, whose own outcome
(including a raise) propagates. -/
def hybridFallback (env : FetchEnv) (since_id : Option Nat)
    (trace : List FetchCall) : Except Unit (List Nat) × List FetchCall :=
  match since_id with
  | some sid =>
    match env.byIdFetch (some sid) with
    | .ok tweets => (.ok tweets, trace ++ [.byId (some sid)])
    | .error _ => (.ok [], trace ++ [.byId (some sid)])
  | none =>
    match env.advSearch none with
    | .ok tweets => (.ok tweets, trace ++ [.adv none])
    | .error _ =>
      (env.byIdFetch none, trace ++ [.adv none, .byId none])

/-- Embeds fetch_tweets_hybrid from src/main.py. Primary: when a last
fetch timestamp is present, call Advanced Search with it; a non-empty
result is returned with no fallback; an empty result triggers, when
since_id is present, one id-based safety-net call whose empty or raising
outcome still yields an empty list; a raising Advanced Search call falls
through to the fallback section, as does a missing timestamp. -/
def fetch_tweets_hybrid (env : FetchEnv) (since_id : Option Nat)
    (last_fetch_timestamp_utc : Option Nat) :
    Except Unit (List Nat) × List FetchCall :=
  match last_fetch_timestamp_utc with
  | some ts =>
    match env.advSearch (some ts) with
    | .ok tweets =>
      if tweets ≠ [] then (.ok tweets, [.adv (some ts)])
      else
        match since_id with
        | some sid =>
          match env.byIdFetch (some sid) with
          | .ok fallback_tweets =>
            if fallback_tweets ≠ [] then
              (.ok fallback_tweets, [.adv (some ts), .byId (some sid)])
            else (.ok [], [.adv (some ts), .byId (some sid)])
          | .error _ => (.ok [], [.adv (some ts), .byId (some sid)])
        | none => (.ok [], [.adv (some ts)])
    | .error _ => hybridFallback env since_id [.adv (some ts)]
  | none => hybridFallback env since_id []

/-! ## Refresh run: src/main.py, refresh_brief_logic

The run reads each account cursor from the session context (storage.py,
state.json), fetches through fetch_tweets_hybrid (here an oracle giving the
per-account successful fetch result), optionally generates and saves a
digest, and writes the per-account tracking rows through
update_account_tracking. Wall clock, the digest generator and the regex
text cleanup are oracles. -/

/-- The session-context cursor read through get_session_context at the
start of a run (src/storage.py). -/
structure SessionContext where
  last_tweet_id : Option Nat
  last_fetch_timestamp_utc : Option Nat
deriving Repr, DecidableEq

/-- Embeds the new-last-tweet-id computation of refresh_brief_logic: the
first (newest) fetched tweet id when the fetch returned tweets, else the
value read from the session context. -/
def newLastTweetId (session_last_tweet_id : Option Nat)
    (tweets : List Nat) : Option Nat :=
  match tweets with
  | [] => session_last_tweet_id
  | t :: _ => some t

/-- Persistent state touched by a refresh run: the account_tracking table
and the summaries table. -/
structure RefreshState where
  tracking : List TrackingRow
  summaries : SummariesDB
deriving Repr, DecidableEq

/-- The dictionary returned by a completed refresh_brief_logic run. -/
structure RefreshResultData where
  tweet_count : Nat
  summary_id : Option Nat
deriving Repr, DecidableEq

/-- Embeds refresh_brief_logic from src/main.py. The error value stands
for a raised exception (HTTPException or a propagated generate_summary
failure). Note the order of effects taken from the source: on a zero-item
run the tracking rows are updated before the previous-summary check; on a
generation failure the exception is re-raised before any tracking update
runs, leaving the state untouched. -/
def refresh_brief_logic (accounts : List String)
    (session : String → SessionContext) (fetched : String → List Nat)
    (gen : Except Unit String) (cleanFn : String → String)
    (prev_summary : String) (now : Nat) (st : RefreshState) :
    RefreshState × Except Unit RefreshResultData :=
  if accounts = [] then (st, .error ())
  else
    let all_new_tweets := (accounts.map fetched).flatten
    let lastIds : String → Option Nat := fun h =>
      newLastTweetId (session h).last_tweet_id (fetched h)
    if all_new_tweets = [] then
      let tracking2 := accounts.foldl (fun db h =>
        update_account_tracking db now h (lastIds h) (some now) none)
        st.tracking
      if prev_summary.trim ≠ "" then
        ({ st with tracking := tracking2 }, .ok ⟨0, none⟩)
      else ({ st with tracking := tracking2 }, .error ())
    else
      match gen with
      | .error _ => (st, .error ())
      | .ok new_summary =>
        let cleaned := cleanFn new_summary
        let tweet_ids := all_new_tweets.map (fun t => toString t)
        let saved :=
          if cleaned.trim ≠ "" then
            let r := save_summary st.summaries cleaned tweet_ids (toString now)
            (r.1, some r.2)
          else (st.summaries, none)
        let tracking2 := accounts.foldl (fun db h =>
          update_account_tracking db now h (lastIds h) (some now) saved.2)
          st.tracking
        ({ tracking := tracking2, summaries := saved.1 },
          .ok ⟨all_new_tweets.length, saved.2⟩)

/-! ## Stored cursor evolution across runs -/

/-- The cursor columns of one account_tracking row. -/
structure StoredCursor where
  last_tweet_id : Option Nat
  last_fetch_timestamp_utc : Option Nat
deriving Repr, DecidableEq

/-- The effect of one successful refresh run on the stored cursor of one
account, as written through update_account_tracking: the tweet-id argument
is newLastTweetId (a None argument leaves the stored column unchanged) and
the fetch timestamp is always set to the wall clock of the run. -/
def runCursorStep (stored : StoredCursor)
    (session_last_tweet_id : Option Nat) (tweets : List Nat) (now : Nat) :
    StoredCursor :=
  { last_tweet_id :=
      match newLastTweetId session_last_tweet_id tweets with
      | some v => some v
      | none => stored.last_tweet_id,
    last_fetch_timestamp_utc := some now }

/-- The per-account inputs of one successful refresh run: the session
cursor read at the start, the fetched tweet ids (newest first) and the
wall clock at write time. -/
structure SyncRun where
  session_last_tweet_id : Option Nat
  tweets : List Nat
  now : Nat
deriving Repr, DecidableEq

/-- Side conditions of a successful sync: the wall clock did not run
backwards, the session-context id agrees with the stored cursor (or is
absent), and the fetched items are not older than the stored cursor (the
id-based fetch guarantees this by construction, see
fetch_tweets_only_newer; the window fetch guarantees it because snowflake
ids grow with creation time). -/
def validRun (c : StoredCursor) (r : SyncRun) : Bool :=
  (match c.last_fetch_timestamp_utc with
   | some t0 => decide (t0 ≤ r.now)
   | none => true) &&
  (r.session_last_tweet_id == none ||
   r.session_last_tweet_id == c.last_tweet_id) &&
  r.tweets.all (fun t =>
    match c.last_tweet_id with
    | some s => decide (s ≤ t)
    | none => true)

/-- Chained validity of a sequence of successful runs, each judged against
the cursor produced by the preceding runs. -/
def validSeq : StoredCursor → List SyncRun → Bool
  | _, [] => true
  | c, r :: rs =>
    validRun c r &&
    validSeq (runCursorStep c r.session_last_tweet_id r.tweets r.now) rs

/-- Cursor order: present fields never decrease and never become absent. -/
def CursorLE (c c2 : StoredCursor) : Prop :=
  (∀ t, c.last_fetch_timestamp_utc = some t →
    ∃ t2, c2.last_fetch_timestamp_utc = some t2 ∧ t ≤ t2) ∧
  (∀ s, c.last_tweet_id = some s →
    ∃ s2, c2.last_tweet_id = some s2 ∧ s ≤ s2)

/-- The successive stored cursors along a sequence of runs. -/
def cursorTrace : StoredCursor → List SyncRun → List StoredCursor
  | c, [] => [c]
  | c, r :: rs =>
    c :: cursorTrace (runCursorStep c r.session_last_tweet_id r.tweets r.now) rs

/-! ## Trigger scheduler: src/scheduler.py -/

/-- One row appended to scheduler_logs by log_scheduler_event. -/
structure LogEvent where
  fetch_type : String
  status : String
  error_message : Option String
  retry_count : Nat
  tweets_fetched : Option Nat
  summary_generated : Option Bool
deriving Repr, DecidableEq

/-- The outcome of one awaited refresh_brief_logic call as seen by the
retry loop: a raised exception, or a returned value (None counting as no
result). -/
inductive RefreshOutcome where
  | raised
  | returned (result : Option RefreshResultData)
deriving Repr, DecidableEq

/-- Embeds the retry loop of SchedulerManager._scheduled_refresh,
recursing over the remaining attempts, with the persistent state threaded
through the per-attempt work function. Returns the final state, the logged
events, the backoff sleeps performed between attempts, and the number of
calls made to the work function. -/
def retryLoop {σ : Type} (refresh : Nat → σ → σ × RefreshOutcome)
    (fetch_type : String) (backoff_seconds : Nat) :
    Nat → Nat → σ → σ × (List LogEvent × List Nat × Nat)
  | 0, _, st => (st, ([], [], 0))
  | n + 1, attempt, st =>
    let r := refresh attempt st
    match r.2 with
    | .returned (some res) =>
      (r.1,
        ([{ fetch_type := fetch_type, status := "success",
            error_message := none, retry_count := 0,
            tweets_fetched := some res.tweet_count,
            summary_generated := some res.summary_id.isSome }], [], 1))
    | .returned none =>
      (r.1,
        ([{ fetch_type := fetch_type, status := "warning",
            error_message := some "No result returned",
            retry_count := attempt - 1, tweets_fetched := none,
            summary_generated := none }], [], 1))
    | .raised =>
      if n = 0 then
        (r.1,
          ([{ fetch_type := fetch_type, status := "error",
              error_message := some "exception", retry_count := attempt,
              tweets_fetched := none, summary_generated := none }], [], 1))
      else
        let k := retryLoop refresh fetch_type backoff_seconds n (attempt + 1) r.1
        (k.1, (k.2.1, backoff_seconds * 2 ^ (attempt - 1) :: k.2.2.1,
          k.2.2.2 + 1))

/-- Embeds SchedulerManager._scheduled_refresh from src/scheduler.py: the
market_hours calendar-skip precondition short-circuits with one standalone
skipped event before anything else; an empty account list short-circuits
with one error event; otherwise the retry loop runs with the configured
attempt cap and base backoff. -/
def scheduledRefresh {σ : Type} (fetch_type : String) (today : CivilDate)
    (accounts : List String) (max_attempts backoff_seconds : Nat)
    (refresh : Nat → σ → σ × RefreshOutcome) (st : σ) :
    σ × (List LogEvent × List Nat × Nat) :=
  if fetch_type = "market_hours" ∧ should_fetch_today today = false then
    (st,
      ([{ fetch_type := fetch_type, status := "skipped",
          error_message := some "Today is weekend or holiday",
          retry_count := 0, tweets_fetched := none,
          summary_generated := none }], [], 0))
  else if accounts = [] then
    (st,
      ([{ fetch_type := fetch_type, status := "error",
          error_message := some "No accounts monitored", retry_count := 0,
          tweets_fetched := none, summary_generated := none }], [], 0))
  else retryLoop refresh fetch_type backoff_seconds max_attempts 1 st

/-! ## Scheduler lifecycle and pause durability: src/scheduler.py -/

/-- The scheduler section of the persisted configuration, as read through
get_scheduler_config: the enabled flag, the persisted paused flag, and the
switches that decide which calendar jobs get registered. -/
structure SchedulerConfig where
  enabled : Bool
  paused : Bool
  after_market_enabled : Bool
  after_market_times : List String
  weekends_enabled : Bool
deriving Repr, DecidableEq

/-- Modelled from the spec: save_scheduler_config is imported by
src/scheduler.py from the config module but its definition is not under
src. Per the spec, pause state is durable, so the call persists the given
paused flag into the stored scheduler configuration. -/
def save_scheduler_config (store : SchedulerConfig) (paused : Bool) :
    SchedulerConfig :=
  { store with paused := paused }

/-- The state of the underlying AsyncIOScheduler: whether it was started,
whether it is paused, and the ids of the registered jobs. -/
structure APSchedulerState where
  running : Bool
  paused : Bool
  jobs : List String
deriving Repr, DecidableEq

/-- The SchedulerManager object: the config captured at construction, the
is_paused flag (loaded from the persisted config), and the underlying
scheduler once start has created it. -/
structure SchedulerManager where
  config : SchedulerConfig
  is_paused : Bool
  sched : Option APSchedulerState
deriving Repr, DecidableEq

/-- Embeds SchedulerManager.__init__: the paused flag is loaded from the
persisted configuration, the scheduler object does not exist yet. -/
def SchedulerManager.init (store : SchedulerConfig) : SchedulerManager :=
  { config := store, is_paused := store.paused, sched := none }

/-- The job ids registered by _schedule_market_hours,
_schedule_after_market and _schedule_weekends, honoring the enabled
switches of the configuration. -/
def scheduledJobs (cfg : SchedulerConfig) : List String :=
  ["market_hours"] ++
  (if cfg.after_market_enabled then
    (List.range cfg.after_market_times.length).map
      (fun i => "after_market_" ++ toString i)
   else []) ++
  (if cfg.weekends_enabled then ["weekend"] else [])

/-- The world a scheduler lives in: the persisted configuration store and
the manager instance. -/
structure SchedulerWorld where
  store : SchedulerConfig
  mgr : SchedulerManager
deriving Repr, DecidableEq

/-- Embeds SchedulerManager.start: a disabled configuration or an already
running scheduler is left alone; otherwise the calendar jobs are
registered, the scheduler starts, and, when the manager was constructed
paused, it is immediately paused again. -/
def SchedulerWorld.start (w : SchedulerWorld) : SchedulerWorld :=
  if ¬ w.store.enabled then w
  else if (match w.mgr.sched with
           | some s => s.running
           | none => false) then w
  else
    let s0 : APSchedulerState :=
      { running := true, paused := false, jobs := scheduledJobs w.mgr.config }
    let s1 := if w.mgr.is_paused then { s0 with paused := true } else s0
    { w with mgr := { w.mgr with sched := some s1 } }

/-- Embeds SchedulerManager.pause: only a running scheduler is paused; the
is_paused flag is set and persisted through save_scheduler_config. -/
def SchedulerWorld.pause (w : SchedulerWorld) : SchedulerWorld :=
  match w.mgr.sched with
  | some s =>
    if s.running then
      { store := save_scheduler_config w.store true,
        mgr := { w.mgr with
                  is_paused := true
                  sched := some ({ s with paused := true }) } }
    else w
  | none => w

/-- Embeds SchedulerManager.resume: with no scheduler object, nothing
happens; when either the manager flag or the underlying scheduler says
paused, the scheduler resumes and the cleared flag is persisted. -/
def SchedulerWorld.resume (w : SchedulerWorld) : SchedulerWorld :=
  match w.mgr.sched with
  | none => w
  | some s =>
    let scheduler_paused := s.running && s.paused
    if w.mgr.is_paused || scheduler_paused then
      { store := save_scheduler_config w.store false,
        mgr := { w.mgr with
                  is_paused := false
                  sched := some ({ s with paused := false }) } }
    else w

/-- Modelled from the spec: firing of a registered trigger is carried out
by the APScheduler library, which is not part of src; per the spec,
pausing suspends all calendar firing, so a job can fire only on a running,
unpaused scheduler that has the job registered. -/
def canFire (m : SchedulerManager) (job : String) : Bool :=
  match m.sched with
  | some s => s.running && !s.paused && s.jobs.contains job
  | none => false

/-! ## Concrete fixtures used by witnesses and counterexamples -/

/-- The upstream page sequence of the pagination scenario: three pages
holding ids 105..103, 102..100 and 99..98, chained by cursors, the last
page final. -/
def pagesC3 : List Page :=
  [ { tweets := [105, 104, 103], has_next_page := true, next_cursor := "c1",
      isError := false },
    { tweets := [102, 101, 100], has_next_page := true, next_cursor := "c2",
      isError := false },
    { tweets := [99, 98], has_next_page := false, next_cursor := "",
      isError := false } ]

/-- A two-row tracking table: one row for handle a, one for handle b. -/
def trackingW : List TrackingRow :=
  [ { handle := "a", last_tweet_id := some 3,
      last_fetch_timestamp_utc := some 50, last_summary_id := some 1,
      updated_at := 50 },
    { handle := "b", last_tweet_id := none,
      last_fetch_timestamp_utc := none, last_summary_id := none,
      updated_at := 40 } ]

/-! # Theorems -/

/-! ## Generic lemmas about the embedded functions -/

theorem findExistingSummary_eq_none (rows : List SummaryRow)
    (tids : List String) (h : ∀ r ∈ rows, r.tweet_ids ≠ tids) :
    findExistingSummary rows tids = none := by
  unfold findExistingSummary
  have hf : rows.filter (fun r => r.tweet_ids = tids) = [] := by
    rw [List.filter_eq_nil_iff]
    intro r hr
    simpa using h r hr
  rw [hf]
  rfl

theorem findExistingSummary_append_single (rows : List SummaryRow)
    (tids : List String) (h : ∀ r ∈ rows, r.tweet_ids ≠ tids)
    (x : SummaryRow) (hx : x.tweet_ids = tids) :
    findExistingSummary (rows ++ [x]) tids = some x := by
  unfold findExistingSummary
  have hf : rows.filter (fun r => r.tweet_ids = tids) = [] := by
    rw [List.filter_eq_nil_iff]
    intro r hr
    simpa using h r hr
  rw [List.filter_append, hf]
  simp [hx]

theorem save_summary_insert_db (db : SummariesDB) (s ts : String)
    (L : List String)
    (hfind : findExistingSummary db.rows (normalized_tweet_ids L) = none) :
    (save_summary db s L ts).1 =
      ⟨db.rows ++ [(⟨db.nextId, ts, s, normalized_tweet_ids L⟩ : SummaryRow)],
        db.nextId + 1⟩ := by
  simp only [save_summary]
  rw [hfind]

theorem save_summary_insert_id (db : SummariesDB) (s ts : String)
    (L : List String)
    (hfind : findExistingSummary db.rows (normalized_tweet_ids L) = none) :
    (save_summary db s L ts).2 = db.nextId := by
  simp only [save_summary]
  rw [hfind]

theorem save_summary_update_db (db : SummariesDB) (s ts : String)
    (L : List String) (x : SummaryRow)
    (hfind : findExistingSummary db.rows (normalized_tweet_ids L) = some x) :
    (save_summary db s L ts).1 =
      ⟨db.rows.map (fun r =>
          if r.id = x.id then { r with summary := s } else r),
        db.nextId⟩ := by
  simp only [save_summary]
  rw [hfind]

theorem save_summary_update_id (db : SummariesDB) (s ts : String)
    (L : List String) (x : SummaryRow)
    (hfind : findExistingSummary db.rows (normalized_tweet_ids L) = some x) :
    (save_summary db s L ts).2 = x.id := by
  simp only [save_summary]
  rw [hfind]

/-- C1. For every item-id list, calling save_summary twice with the same
list never creates a second summaries row: the second call finds the row
whose stored tweet_ids equal the normalized (deduplicated,
ascending-sorted) id list, overwrites only its summary text, returns the
id produced by the first call, and the timestamp stored by the first call
is preserved regardless of the new text. Stated from a table holding no
row for this normalized set, so that the first call is the one that
creates the row. -/
theorem save_summary_upsert_idempotent (db : SummariesDB)
    (s1 s2 ts1 ts2 : String) (L : List String)
    (hnone : ∀ r ∈ db.rows, r.tweet_ids ≠ normalized_tweet_ids L) :
    (save_summary (save_summary db s1 L ts1).1 s2 L ts2).1.rows.length =
      (save_summary db s1 L ts1).1.rows.length ∧
    (save_summary (save_summary db s1 L ts1).1 s2 L ts2).2 =
      (save_summary db s1 L ts1).2 ∧
    ∃ r ∈ (save_summary (save_summary db s1 L ts1).1 s2 L ts2).1.rows,
      r.id = (save_summary db s1 L ts1).2 ∧ r.timestamp = ts1 ∧
      r.summary = s2 ∧ r.tweet_ids = normalized_tweet_ids L := by
  have hfind1 : findExistingSummary db.rows (normalized_tweet_ids L) = none :=
    findExistingSummary_eq_none _ _ hnone
  have hdb1 := save_summary_insert_db db s1 ts1 L hfind1
  have hid1 := save_summary_insert_id db s1 ts1 L hfind1
  have hfind2 : findExistingSummary
      ((⟨db.rows ++
          [(⟨db.nextId, ts1, s1, normalized_tweet_ids L⟩ : SummaryRow)],
        db.nextId + 1⟩ : SummariesDB)).rows
      (normalized_tweet_ids L) =
      some ⟨db.nextId, ts1, s1, normalized_tweet_ids L⟩ :=
    findExistingSummary_append_single _ _ hnone _ rfl
  have hdb2 := save_summary_update_db _ s2 ts2 L _ hfind2
  have hid2 := save_summary_update_id _ s2 ts2 L _ hfind2
  rw [hdb1]
  refine ⟨?_, ?_, ?_⟩
  · rw [hdb2]
    simp
  · rw [hid2, hid1]
  · rw [hdb2, hid1]
    have hmem : (⟨db.nextId, ts1, s1, normalized_tweet_ids L⟩ : SummaryRow) ∈
        (⟨db.rows ++
            [(⟨db.nextId, ts1, s1, normalized_tweet_ids L⟩ : SummaryRow)],
          db.nextId + 1⟩ : SummariesDB).rows := by
      simp
    refine ⟨_, List.mem_map_of_mem _ hmem, ?_, ?_, ?_, ?_⟩ <;> simp

/-- Witness for C1 at a concrete table and id list. -/
theorem save_summary_upsert_idempotent_witness :
    (save_summary (save_summary ⟨[], 1⟩ "a" ["2", "1", "2"] "t1").1 "b"
        ["2", "1", "2"] "t2").1.rows.length =
      (save_summary ⟨[], 1⟩ "a" ["2", "1", "2"] "t1").1.rows.length ∧
    (save_summary (save_summary ⟨[], 1⟩ "a" ["2", "1", "2"] "t1").1 "b"
        ["2", "1", "2"] "t2").2 =
      (save_summary ⟨[], 1⟩ "a" ["2", "1", "2"] "t1").2 ∧
    ∃ r ∈ (save_summary (save_summary ⟨[], 1⟩ "a" ["2", "1", "2"] "t1").1 "b"
        ["2", "1", "2"] "t2").1.rows,
      r.id = (save_summary ⟨[], 1⟩ "a" ["2", "1", "2"] "t1").2 ∧
      r.timestamp = "t1" ∧ r.summary = "b" ∧
      r.tweet_ids = normalized_tweet_ids ["2", "1", "2"] :=
  save_summary_upsert_idempotent ⟨[], 1⟩ "a" "b" "t1" "t2" ["2", "1", "2"]
    (by simp)

theorem fetchLoop_count_le (since : Option Nat) (fuel : Nat)
    (pages : List Page) : (fetchLoop since fuel pages).2 ≤ fuel := by
  induction fuel generalizing pages with
  | zero => simp [fetchLoop]
  | succ n ih =>
    cases pages with
    | nil => simp [fetchLoop]
    | cons p rest =>
      have hrec := ih rest
      cases since with
      | some s =>
        simp only [fetchLoop]
        split
        · show 1 ≤ n + 1
          omega
        · split
          · show 1 ≤ n + 1
            omega
          · split
            · show 1 ≤ n + 1
              omega
            · split
              · show 1 ≤ n + 1
                omega
              · split
                · show 1 ≤ n + 1
                  omega
                · show (fetchLoop (some s) n rest).2 + 1 ≤ n + 1
                  omega
      | none =>
        simp only [fetchLoop]
        split
        · show 1 ≤ n + 1
          omega
        · split
          · show 1 ≤ n + 1
            omega
          · split
            · show 1 ≤ n + 1
              omega
            · split
              · show 1 ≤ n + 1
                omega
              · show (fetchLoop none n rest).2 + 1 ≤ n + 1
                omega

theorem fetchLoop_mem_gt (s : Nat) (fuel : Nat) (pages : List Page)
    (t : Nat) (ht : t ∈ (fetchLoop (some s) fuel pages).1) : s < t := by
  induction fuel generalizing pages with
  | zero => simp [fetchLoop] at ht
  | succ n ih =>
    cases pages with
    | nil => simp [fetchLoop] at ht
    | cons p rest =>
      simp only [fetchLoop] at ht
      split at ht
      · simp at ht
      · split at ht
        · simp at ht
        · split at ht
          · rcases List.mem_filter.mp ht with ⟨_, hgt⟩
            simpa using hgt
          · split at ht
            · rcases List.mem_filter.mp ht with ⟨_, hgt⟩
              simpa using hgt
            · split at ht
              · rcases List.mem_filter.mp ht with ⟨_, hgt⟩
                simpa using hgt
              · rcases List.mem_append.mp ht with hmem | hmem
                · rcases List.mem_filter.mp hmem with ⟨_, hgt⟩
                  simpa using hgt
                · exact ih rest hmem

theorem fetch_tweets_pagination_counterexample :
    (fetch_tweets pagesC3 (some 100)).1 = [105, 104, 103, 102, 101] ∧
    (fetch_tweets pagesC3 (some 100)).2 = 3 ∧
    ¬ (fetch_tweets pagesC3 (some 100)).2 ≤ 2 := by decide

/-- C3 amended. On the scenario pages with since_id 100 the fetch returns
exactly 105..101 — every id strictly greater than 100 exactly once, 100
and below excluded — while fetching all three pages; in general every
returned id is strictly greater than since_id and the page count is capped
at 5 pages without since_id and 10 with one. -/
theorem fetch_tweets_pagination_amended :
    (fetch_tweets pagesC3 (some 100)).1 = [105, 104, 103, 102, 101] ∧
    (fetch_tweets pagesC3 (some 100)).2 = 3 ∧
    (∀ pages, (fetch_tweets pages none).2 ≤ 5) ∧
    (∀ pages s, (fetch_tweets pages (some s)).2 ≤ 10) ∧
    (∀ pages s t, t ∈ (fetch_tweets pages (some s)).1 → s < t) := by
  refine ⟨by decide, by decide, ?_, ?_, ?_⟩
  · intro pages
    exact fetchLoop_count_le none 5 pages
  · intro pages s
    exact fetchLoop_count_le (some s) 10 pages
  · intro pages s t ht
    exact fetchLoop_mem_gt s 10 pages t ht

/-- Witness for C3 amended at a concrete membership instance. -/
theorem fetch_tweets_pagination_amended_witness :
    101 ∈ (fetch_tweets pagesC3 (some 100)).1 ∧ 100 < 101 :=
  ⟨by decide,
   fetch_tweets_pagination_amended.2.2.2.2 pagesC3 100 101 (by decide)⟩

/-- C4. When the window fetch returns zero items and since_id is present,
fetch_tweets_hybrid makes the id-based safety-net call with that since_id
after the window call; if that call yields zero items or raises, the
result is the empty list, not an error. When the window fetch returns one
or more items, no fallback call is made. -/
theorem hybrid_empty_window_fallback (env : FetchEnv) (sid ts : Nat) :
    (env.advSearch (some ts) = .ok [] →
      (fetch_tweets_hybrid env (some sid) (some ts)).2 =
        [.adv (some ts), .byId (some sid)] ∧
      ((env.byIdFetch (some sid) = .ok [] ∨
          env.byIdFetch (some sid) = .error ()) →
        (fetch_tweets_hybrid env (some sid) (some ts)).1 = .ok [])) ∧
    (∀ l, env.advSearch (some ts) = .ok l → l ≠ [] →
      (fetch_tweets_hybrid env (some sid) (some ts)).1 = .ok l ∧
      (fetch_tweets_hybrid env (some sid) (some ts)).2 = [.adv (some ts)]) := by
  constructor
  · intro hadv
    refine ⟨?_, ?_⟩
    · cases hb : env.byIdFetch (some sid) with
      | ok fb =>
        cases fb with
        | nil => simp [fetch_tweets_hybrid, hadv, hb]
        | cons a l => simp [fetch_tweets_hybrid, hadv, hb]
      | error e => simp [fetch_tweets_hybrid, hadv, hb]
    · rintro (hb | hb) <;> simp [fetch_tweets_hybrid, hadv, hb]
  · intro l hadv hne
    simp [fetch_tweets_hybrid, hadv, hne]

/-- Witness for C4: both window and id-based fetch return empty, the
trace shows the safety-net call and the result is the empty list. -/
theorem hybrid_empty_window_fallback_witness :
    (fetch_tweets_hybrid ⟨fun _ => .ok [], fun _ => .ok []⟩ (some 7)
        (some 5)).2 = [.adv (some 5), .byId (some 7)] ∧
    (fetch_tweets_hybrid ⟨fun _ => .ok [], fun _ => .ok []⟩ (some 7)
        (some 5)).1 = .ok [] :=
  have h := (hybrid_empty_window_fallback
    ⟨fun _ => .ok [], fun _ => .ok []⟩ 7 5).1 rfl
  ⟨h.1, h.2 (Or.inl rfl)⟩

/-- C6. On a true first sync (no timestamp, no since_id) the hybrid
strategy first tries Advanced Search with no since timestamp, whose
effective window start is now minus one hour; if that call raises, it
falls back to the unfiltered id-based fetch, whose outcome becomes the
result. -/
theorem hybrid_first_sync (env : FetchEnv) (now : Nat) :
    advancedSearchSince now none = now - 3600 ∧
    (fetch_tweets_hybrid env none none).2.head? = some (.adv none) ∧
    (env.advSearch none = .error () →
      (fetch_tweets_hybrid env none none).1 = env.byIdFetch none ∧
      (fetch_tweets_hybrid env none none).2 = [.adv none, .byId none]) ∧
    (∀ l, env.advSearch none = .ok l →
      (fetch_tweets_hybrid env none none).1 = .ok l ∧
      (fetch_tweets_hybrid env none none).2 = [.adv none]) := by
  refine ⟨rfl, ?_, ?_, ?_⟩
  · cases ha : env.advSearch none with
    | ok l => simp [fetch_tweets_hybrid, hybridFallback, ha]
    | error e => simp [fetch_tweets_hybrid, hybridFallback, ha]
  · intro ha
    simp [fetch_tweets_hybrid, hybridFallback, ha]
  · intro l ha
    simp [fetch_tweets_hybrid, hybridFallback, ha]

/-- Witness for C6: the window call raises, the unfiltered id-based
fallback supplies the result. -/
theorem hybrid_first_sync_witness :
    advancedSearchSince 5000 none = 5000 - 3600 ∧
    (fetch_tweets_hybrid ⟨fun _ => .error (), fun _ => .ok [3]⟩ none
        none).1 = .ok [3] ∧
    (fetch_tweets_hybrid ⟨fun _ => .error (), fun _ => .ok [3]⟩ none
        none).2 = [.adv none, .byId none] :=
  have h := hybrid_first_sync ⟨fun _ => .error (), fun _ => .ok [3]⟩ 5000
  ⟨h.1, (h.2.2.1 rfl).1, (h.2.2.1 rfl).2⟩

/-- C7. With max_attempts 3 and base backoff 60, a fire whose work raises
on every attempt calls the work function exactly 3 times, sleeps 60 then
120 seconds between attempts, and logs one final event with status error
and retry_count 3; a work call that returns no result is logged once with
status warning and retry_count 0 and is not retried. -/
theorem scheduled_refresh_retry {σ : Type} (today : CivilDate)
    (accounts : List String) (refresh : Nat → σ → σ × RefreshOutcome)
    (st : σ) (hacc : accounts ≠ []) :
    ((∀ i s, (refresh i s).2 = .raised) →
      (scheduledRefresh "manual" today accounts 3 60 refresh st).2.2.2 = 3 ∧
      (scheduledRefresh "manual" today accounts 3 60 refresh st).2.2.1 =
        [60, 120] ∧
      (scheduledRefresh "manual" today accounts 3 60 refresh st).2.1 =
        [⟨"manual", "error", some "exception", 3, none, none⟩]) ∧
    ((refresh 1 st).2 = .returned none →
      (scheduledRefresh "manual" today accounts 3 60 refresh st).2.2.2 = 1 ∧
      (scheduledRefresh "manual" today accounts 3 60 refresh st).2.2.1 =
        [] ∧
      (scheduledRefresh "manual" today accounts 3 60 refresh st).2.1 =
        [⟨"manual", "warning", some "No result returned", 0, none, none⟩]) := by
  have hsched : scheduledRefresh "manual" today accounts 3 60 refresh st =
      retryLoop refresh "manual" 60 3 1 st := by
    simp [scheduledRefresh, hacc]
  constructor
  · intro h
    rw [hsched]
    simp [retryLoop, h]
  · intro h
    rw [hsched]
    simp [retryLoop, h]

/-- Witness for C7 with an always-raising and a no-result work function. -/
theorem scheduled_refresh_retry_witness :
    ((scheduledRefresh "manual" ⟨2026, 1, 2⟩ ["acct"] 3 60
        (fun _ (s : Nat) => (s + 1, .raised)) 0).2.2.2 = 3 ∧
      (scheduledRefresh "manual" ⟨2026, 1, 2⟩ ["acct"] 3 60
        (fun _ (s : Nat) => (s + 1, .raised)) 0).2.2.1 = [60, 120] ∧
      (scheduledRefresh "manual" ⟨2026, 1, 2⟩ ["acct"] 3 60
        (fun _ (s : Nat) => (s + 1, .raised)) 0).2.1 =
        [⟨"manual", "error", some "exception", 3, none, none⟩]) ∧
    ((scheduledRefresh "manual" ⟨2026, 1, 2⟩ ["acct"] 3 60
        (fun _ (s : Nat) => (s + 1, .returned none)) 0).2.2.2 = 1 ∧
      (scheduledRefresh "manual" ⟨2026, 1, 2⟩ ["acct"] 3 60
        (fun _ (s : Nat) => (s + 1, .returned none)) 0).2.2.1 = [] ∧
      (scheduledRefresh "manual" ⟨2026, 1, 2⟩ ["acct"] 3 60
        (fun _ (s : Nat) => (s + 1, .returned none)) 0).2.1 =
        [⟨"manual", "warning", some "No result returned", 0, none, none⟩]) :=
  ⟨(scheduled_refresh_retry ⟨2026, 1, 2⟩ ["acct"]
      (fun _ (s : Nat) => (s + 1, .raised)) 0 (by simp)).1
      (fun _ _ => rfl),
   (scheduled_refresh_retry ⟨2026, 1, 2⟩ ["acct"]
      (fun _ (s : Nat) => (s + 1, .returned none)) 0 (by simp)).2 rfl⟩

/-- C8. When the market_hours trigger fires on a date failing
should_fetch_today (weekend or holiday), the fire short-circuits before
any fetch: the persistent state is returned unchanged (so no Source
Client call is made and no cursor is written), exactly one standalone
skipped event is logged, and no sleep and no work call happen. -/
theorem market_hours_calendar_skip {σ : Type} (today : CivilDate)
    (accounts : List String) (max_attempts backoff_seconds : Nat)
    (refresh : Nat → σ → σ × RefreshOutcome) (st : σ)
    (hskip : should_fetch_today today = false) :
    scheduledRefresh "market_hours" today accounts max_attempts
      backoff_seconds refresh st =
      (st, ([⟨"market_hours", "skipped", some "Today is weekend or holiday",
        0, none, none⟩], [], 0)) := by
  simp [scheduledRefresh, hskip]

/-- Witness for C8 on a holiday (2026-01-01) and a Saturday (2026-10-10). -/
theorem market_hours_calendar_skip_witness :
    scheduledRefresh "market_hours" ⟨2026, 1, 1⟩ ["acct"] 3 60
        (fun _ (s : Nat) => (s + 1, .raised)) 0 =
      (0, ([⟨"market_hours", "skipped", some "Today is weekend or holiday",
        0, none, none⟩], [], 0)) ∧
    scheduledRefresh "market_hours" ⟨2026, 10, 10⟩ ["acct"] 3 60
        (fun _ (s : Nat) => (s + 1, .raised)) 0 =
      (0, ([⟨"market_hours", "skipped", some "Today is weekend or holiday",
        0, none, none⟩], [], 0)) :=
  ⟨market_hours_calendar_skip ⟨2026, 1, 1⟩ ["acct"] 3 60
      (fun _ (s : Nat) => (s + 1, .raised)) 0 (by decide),
   market_hours_calendar_skip ⟨2026, 10, 10⟩ ["acct"] 3 60
      (fun _ (s : Nat) => (s + 1, .raised)) 0 (by decide)⟩

/-- C5 evidence. When at least one new item was fetched and the digest
generator raises, refresh_brief_logic re-raises before reaching the
tracking update loop, so the persistent state — including every account
cursor — is returned unchanged: the cursors do NOT advance, contradicting
the stated behavior. -/
theorem refresh_generation_failure_state_unchanged (st : RefreshState)
    (now : Nat) :
    refresh_brief_logic ["acct"] (fun _ => ⟨none, none⟩) (fun _ => [5])
      (.error ()) (fun s => s) "prev" now st = (st, .error ()) := rfl

theorem validRun_step (c : StoredCursor) (r : SyncRun)
    (h : validRun c r = true) :
    CursorLE c (runCursorStep c r.session_last_tweet_id r.tweets r.now) := by
  obtain ⟨sess, tws, rnow⟩ := r
  unfold validRun at h
  simp only [Bool.and_eq_true] at h
  obtain ⟨⟨hts, hsess⟩, htweets⟩ := h
  have htsP : ∀ t0, c.last_fetch_timestamp_utc = some t0 → t0 ≤ rnow := by
    intro t0 ht0
    rw [ht0] at hts
    simpa using hts
  have hsessP : sess = none ∨ sess = c.last_tweet_id := by
    rw [Bool.or_eq_true] at hsess
    rcases hsess with h | h
    · exact Or.inl (by simpa using h)
    · exact Or.inr (by simpa using h)
  have hallP : ∀ t ∈ tws, ∀ s, c.last_tweet_id = some s → s ≤ t := by
    intro t htmem s hsc
    have h1 := List.all_eq_true.mp htweets t htmem
    rw [hsc] at h1
    simpa using h1
  clear hts hsess htweets
  constructor
  · intro t htc
    exact ⟨rnow, rfl, htsP t htc⟩
  · intro s hsc
    cases tws with
    | nil =>
      rcases hsessP with hse | hse
      · refine ⟨s, ?_, le_refl s⟩
        simp [runCursorStep, newLastTweetId, hse, hsc]
      · refine ⟨s, ?_, le_refl s⟩
        simp [runCursorStep, newLastTweetId, hse, hsc]
    | cons t ts2 =>
      have hst : s ≤ t := hallP t (List.mem_cons_self t ts2) s hsc
      refine ⟨t, ?_, hst⟩
      simp [runCursorStep, newLastTweetId]

theorem cursorTrace_head (c : StoredCursor) (runs : List SyncRun) :
    (cursorTrace c runs).head? = some c := by
  cases runs <;> rfl

/-- C2. Across any sequence of successful syncs for one account — wall
clock non-decreasing, session cursor agreeing with the stored cursor or
absent, fetched items never older than the stored cursor — the stored
cursor evolves through runCursorStep (the new last_tweet_id is the head of
the fetched list when items were fetched, else the stored value is kept;
the fetch timestamp is set to the wall clock on every run including
zero-item runs) and is monotone: adjacent cursors in the trace never
decrease in either field. -/
theorem account_cursor_monotone (c : StoredCursor) (runs : List SyncRun)
    (h : validSeq c runs = true) :
    List.Chain' CursorLE (cursorTrace c runs) := by
  induction runs generalizing c with
  | nil => simp [cursorTrace]
  | cons r rs ih =>
    rw [validSeq, Bool.and_eq_true] at h
    obtain ⟨h1, h2⟩ := h
    rw [cursorTrace, List.chain'_cons']
    constructor
    · intro b hb
      rw [cursorTrace_head] at hb
      have hb2 : runCursorStep c r.session_last_tweet_id r.tweets r.now = b := by
        simpa using hb
      rw [← hb2]
      exact validRun_step _ _ h1
    · exact ih _ h2

/-- Witness for C2 over three runs: an item run, a zero-item run, and
another item run. -/
theorem account_cursor_monotone_witness :
    List.Chain' CursorLE
      (cursorTrace ⟨some 10, some 100⟩
        [⟨some 10, [12, 11], 150⟩, ⟨none, [], 200⟩, ⟨some 12, [20], 250⟩]) :=
  account_cursor_monotone ⟨some 10, some 100⟩
    [⟨some 10, [12, 11], 150⟩, ⟨none, [], 200⟩, ⟨some 12, [20], 250⟩]
    (by decide)

/-- C9 helper: the world after starting a fresh manager and pausing it. -/
def worldAfterPause (store0 : SchedulerConfig) : SchedulerWorld :=
  SchedulerWorld.pause
    (SchedulerWorld.start ⟨store0, SchedulerManager.init store0⟩)

/-- C9 helper: the world after a process restart that reloads the
persisted configuration and starts a fresh manager from it. -/
def worldAfterRestart (store0 : SchedulerConfig) : SchedulerWorld :=
  SchedulerWorld.start
    ⟨(worldAfterPause store0).store,
      SchedulerManager.init (worldAfterPause store0).store⟩

/-- C9. Pause state is durable: pause persists the paused flag; a manager
constructed and started again from the persisted configuration comes up
paused — its calendar jobs are registered but no trigger can fire — and
resume clears and persists the flag, after which triggers can fire
again. -/
theorem pause_state_durable (store0 : SchedulerConfig)
    (henabled : store0.enabled = true) :
    (worldAfterPause store0).store.paused = true ∧
    (∃ s, (worldAfterRestart store0).mgr.sched = some s ∧
      s.jobs = scheduledJobs (worldAfterPause store0).store ∧ s.jobs ≠ []) ∧
    (∀ job, canFire (worldAfterRestart store0).mgr job = false) ∧
    (SchedulerWorld.resume (worldAfterRestart store0)).store.paused =
      false ∧
    (SchedulerWorld.resume (worldAfterRestart store0)).mgr.is_paused =
      false ∧
    canFire (SchedulerWorld.resume (worldAfterRestart store0)).mgr
      "market_hours" = true := by
  have hpause : worldAfterPause store0 =
      { store := save_scheduler_config store0 true,
        mgr := { config := store0, is_paused := true,
                 sched := some ⟨true, true, scheduledJobs store0⟩ } } := by
    cases hp : store0.paused <;>
      simp [worldAfterPause, SchedulerWorld.start, SchedulerWorld.pause,
        SchedulerManager.init, henabled, hp]
  have hrestart : worldAfterRestart store0 =
      { store := save_scheduler_config store0 true,
        mgr := { config := save_scheduler_config store0 true,
                 is_paused := true,
                 sched := some ⟨true, true,
                   scheduledJobs (save_scheduler_config store0 true)⟩ } } := by
    rw [worldAfterRestart, hpause]
    simp [SchedulerWorld.start, SchedulerManager.init,
      save_scheduler_config, henabled]
  refine ⟨?_, ?_, ?_, ?_, ?_, ?_⟩
  · rw [hpause]
    rfl
  · rw [hrestart, hpause]
    exact ⟨_, rfl, rfl, by simp [scheduledJobs]⟩
  · intro job
    rw [hrestart]
    simp [canFire]
  · rw [hrestart]
    simp [SchedulerWorld.resume, save_scheduler_config]
  · rw [hrestart]
    simp [SchedulerWorld.resume]
  · rw [hrestart]
    simp [SchedulerWorld.resume, canFire, scheduledJobs]

/-- Witness for C9 at a concrete enabled configuration. -/
theorem pause_state_durable_witness :
    (worldAfterPause ⟨true, false, true, ["20:00", "06:00"], true⟩).store.paused
        = true ∧
    (∃ s, (worldAfterRestart
        ⟨true, false, true, ["20:00", "06:00"], true⟩).mgr.sched = some s ∧
      s.jobs = scheduledJobs
        (worldAfterPause ⟨true, false, true, ["20:00", "06:00"], true⟩).store ∧
      s.jobs ≠ []) ∧
    (∀ job, canFire (worldAfterRestart
      ⟨true, false, true, ["20:00", "06:00"], true⟩).mgr job = false) ∧
    (SchedulerWorld.resume (worldAfterRestart
      ⟨true, false, true, ["20:00", "06:00"], true⟩)).store.paused = false ∧
    (SchedulerWorld.resume (worldAfterRestart
      ⟨true, false, true, ["20:00", "06:00"], true⟩)).mgr.is_paused = false ∧
    canFire (SchedulerWorld.resume (worldAfterRestart
      ⟨true, false, true, ["20:00", "06:00"], true⟩)).mgr "market_hours" =
      true :=
  pause_state_durable ⟨true, false, true, ["20:00", "06:00"], true⟩ rfl

/-- C10. On a table holding a row for the (normalized) handle, writing
tracking data touches no other row, inserts nothing, and on the matching
rows sets exactly the columns whose argument is present: an argument
passed as None leaves its stored column unchanged, an argument passed as
some v sets the column to v, the handle is preserved, and a call with all
three arguments absent leaves the whole table unchanged. -/
theorem update_account_tracking_frame (db : List TrackingRow) (now : Nat)
    (handle : String) (tid lfts lsid : Option Nat)
    (hex : db.any (fun r => r.handle = normalizeHandle handle) = true) :
    (update_account_tracking db now handle tid lfts lsid).length =
      db.length ∧
    update_account_tracking db now handle none none none = db ∧
    ∀ (i : Nat) (r1 r2 : TrackingRow), db[i]? = some r1 →
      (update_account_tracking db now handle tid lfts lsid)[i]? =
        some r2 →
      ((r1.handle ≠ normalizeHandle handle → r2 = r1) ∧
       (r1.handle = normalizeHandle handle →
         r2.handle = r1.handle ∧
         (tid = none → r2.last_tweet_id = r1.last_tweet_id) ∧
         (∀ v, tid = some v → r2.last_tweet_id = some v) ∧
         (lfts = none →
           r2.last_fetch_timestamp_utc = r1.last_fetch_timestamp_utc) ∧
         (∀ v, lfts = some v → r2.last_fetch_timestamp_utc = some v) ∧
         (lsid = none → r2.last_summary_id = r1.last_summary_id) ∧
         (∀ v, lsid = some v → r2.last_summary_id = some v))) := by
  have hid : update_account_tracking db now handle none none none = db := by
    simp [update_account_tracking]
  by_cases hall : tid = none ∧ lfts = none ∧ lsid = none
  · obtain ⟨h1, h2, h3⟩ := hall
    subst h1
    subst h2
    subst h3
    rw [hid]
    refine ⟨rfl, hid, ?_⟩
    intro i r1 r2 hr1 hr2
    rw [hr1] at hr2
    have heq : r1 = r2 := by simpa using hr2
    subst heq
    refine ⟨fun _ => rfl, fun _ => ⟨rfl, fun _ => rfl, ?_, fun _ => rfl,
      ?_, fun _ => rfl, ?_⟩⟩ <;>
      (intro v hv; cases hv)
  · have hupd : update_account_tracking db now handle tid lfts lsid =
        db.map (fun r =>
          if r.handle = normalizeHandle handle then
            applyTrackingUpdate tid lfts lsid now r
          else r) := by
      simp only [update_account_tracking]
      rw [if_neg hall, if_pos hex]
    refine ⟨by rw [hupd]; simp, hid, ?_⟩
    intro i r1 r2 hr1 hr2
    rw [hupd, List.getElem?_map, hr1] at hr2
    have hf : r2 = (if r1.handle = normalizeHandle handle then
        applyTrackingUpdate tid lfts lsid now r1 else r1) := by
      have h3 := hr2.symm
      simpa using h3
    by_cases hh : r1.handle = normalizeHandle handle
    · rw [if_pos hh] at hf
      subst hf
      refine ⟨fun hc => absurd hh hc, fun _ => ⟨rfl, ?_, ?_, ?_, ?_, ?_, ?_⟩⟩
      · intro ht
        subst ht
        rfl
      · intro v hv
        subst hv
        rfl
      · intro ht
        subst ht
        rfl
      · intro v hv
        subst hv
        rfl
      · intro ht
        subst ht
        rfl
      · intro v hv
        subst hv
        rfl
    · rw [if_neg hh] at hf
      subst hf
      exact ⟨fun _ => rfl, fun hc => absurd hc hh⟩

/-- Witness for C10 on a two-row table: the length is preserved, the
all-absent call is the identity, the matching row gets only its tweet id
and updated_at changed, and the other row is untouched. -/
theorem update_account_tracking_frame_witness :
    (update_account_tracking trackingW 99 "@A" (some 7) none none).length =
      trackingW.length ∧
    update_account_tracking trackingW 99 "@A" none none none = trackingW ∧
    (update_account_tracking trackingW 99 "@A" (some 7) none none)[0]? =
      some ⟨"a", some 7, some 50, some 1, 99⟩ ∧
    (update_account_tracking trackingW 99 "@A" (some 7) none none)[1]? =
      some ⟨"b", none, none, none, 40⟩ := by
  have h := update_account_tracking_frame trackingW 99 "@A" (some 7) none
    none (by decide)
  exact ⟨h.1, h.2.1, by decide, by decide⟩

end FinxSidekick
